import Mathlib

/-!
Verification of the UCR course-guide backend (relevance filter, instructor
name resolution, spreadsheet review parsing, two-phase analysis
orchestration, and the progress event bus) against its natural-language
specification.  Text is modelled as `List Char`; Python's string operations
(`lower`, `strip`, `in`, `re.findall` on a plain token, `str.split`) are
embedded as executable functions below.  Floating-point threshold
comparisons (`x / y < 0.005`, `x / y >= 0.01`) are modelled exactly over the
rationals as `200 * x < y` and `100 * x ≥ y`; for the token counts and word
counts involved the two agree.
-/

set_option maxRecDepth 100000

/-- Text is modelled as a list of characters (Python `str`). -/
abbrev Str := List Char

/-- Python `str.lower()` (character-wise, as used on ASCII course data). -/
def lowerStr (l : Str) : Str := l.map Char.toLower

/-- Python `str.upper()` (character-wise, as used on ASCII course data). -/
def upperStr (l : Str) : Str := l.map Char.toUpper

/-- Python `str.strip()`: remove leading and trailing whitespace. -/
def stripStr (l : Str) : Str :=
  ((l.dropWhile Char.isWhitespace).reverse.dropWhile Char.isWhitespace).reverse

/-- Python `needle in hay` for strings: substring containment
(the empty needle is contained in every string). -/
def containsSub (hay needle : Str) : Bool :=
  match hay with
  | [] => needle.isEmpty
  | _ :: rest => needle.isPrefixOf hay || containsSub rest needle

/-- Helper for `countOcc`: count non-overlapping occurrences of the
nonempty `needle`, scanning left to right as `re.findall` does with a
plain-text pattern.  After a match one whole needle length is consumed.
The fuel argument (instantiated with the haystack length, which bounds the
number of scanning steps) keeps the recursion structural so that the
function reduces inside the kernel. -/
def countOccFuel (needle : Str) : Nat → Str → Nat
  | 0, _ => 0
  | _ + 1, [] => 0
  | fuel + 1, c :: rest =>
    if needle.isPrefixOf (c :: rest) then
      countOccFuel needle fuel (List.drop (needle.length - 1) rest) + 1
    else
      countOccFuel needle fuel rest

/-- Python `len(re.findall(needle, hay))` for a plain-text needle:
non-overlapping occurrence count; the empty pattern matches at every
position, giving `hay.length + 1` matches. -/
def countOcc (needle hay : Str) : Nat :=
  match needle with
  | [] => hay.length + 1
  | _ :: _ => countOccFuel needle hay.length hay

/-- Python `str.split()` with no argument: split on runs of whitespace,
discarding empty pieces. -/
def splitWords (l : Str) : List Str :=
  (l.splitOnP Char.isWhitespace).filter (fun w => !w.isEmpty)

/-- Python `len(s.split())`: number of whitespace-separated words. -/
def countWords (l : Str) : Nat := (splitWords l).length

section RelevanceFilter

/-- A reply (Reddit comment) as consumed by the relevance filter:
only the body text matters to it. -/
structure RedditComment where
  body : Str
deriving DecidableEq

/-- A discussion-thread root item as consumed by the relevance filter. -/
structure RedditPost where
  title : Str
  selftext : Str
deriving DecidableEq

/-- A fetched thread: root post plus its replies
(the `post_data` dict of `reddit_service`). -/
structure PostData where
  post : RedditPost
  comments : List RedditComment
deriving DecidableEq

/-- Normalized topic token:
`search_keyword.lower().replace(' ', '').replace('-', '')`. -/
def courseCodeOf (keyword : Str) : Str :=
  (lowerStr keyword).filter (fun c => !(c = ' ' || c = '-'))

/-- Fixed phrases marking a multi-subject "list style" thread
(`list_indicators` in `_is_main_topic_about_course`). -/
def list_indicators : List Str :=
  [ "anybody have these classes".data,
    "anyone take these".data,
    "has anyone taken".data,
    "schedule help".data,
    "class recommendations".data,
    "which classes".data,
    "what classes".data,
    "need help choosing".data,
    "course selection".data,
    "registration help".data,
    "what should i take".data ]

/-- Fixed focus keywords for the title check
(`title_focused_keywords` in `_is_main_topic_about_course`). -/
def title_focused_keywords : List Str :=
  [ "review".data, "experience".data, "professor".data, "prof".data,
    "difficulty".data, "tips".data, "advice".data, "grade".data,
    "exam".data, "final".data, "midterm".data, "homework".data,
    "assignment".data, "how is".data, "taking".data, "took".data,
    "thoughts on".data, "opinions on".data, "recommend".data,
    "easy".data, "hard".data, "worth it".data, "skip".data, "avoid".data ]

/-- Lowercased title of the thread. -/
def titleLower (pd : PostData) : Str := lowerStr pd.post.title

/-- Lowercased body of the thread. -/
def contentLower (pd : PostData) : Str := lowerStr pd.post.selftext

/-- Whether any list-indicator phrase occurs in the lowercased title or
body (`is_list_post` in the source). -/
def isListStyle (pd : PostData) : Bool :=
  list_indicators.any (fun ind =>
    containsSub (titleLower pd) ind || containsSub (contentLower pd) ind)

/-- Full thread text used for the list-post density check:
`f"{title_lower} {content_lower} {' '.join(comment bodies lowercased)}"`. -/
def allTextOf (pd : PostData) : Str :=
  titleLower pd ++ [' '] ++ contentLower pd ++ [' '] ++
    List.intercalate [' '] (pd.comments.map (fun c => lowerStr c.body))

/-- List-post rejection rule: a list-style thread whose topic-token density
over the full text is below 0.5 percent
(`course_code_matches / total_words < 0.005`, exactly
`200 * matches < total_words`). -/
def listRejectB (pd : PostData) (keyword : Str) : Bool :=
  isListStyle pd &&
    (let t := allTextOf pd
     let m := countOcc (courseCodeOf keyword) t
     let w := countWords t
     decide (0 < w) && decide (200 * m < w))

/-- Title-focus rule: the topic token occurs in the title and the title
contains one of the fixed focus keywords. -/
def titleFocusedB (pd : PostData) (keyword : Str) : Bool :=
  containsSub (titleLower pd) (courseCodeOf keyword) &&
    title_focused_keywords.any (fun k => containsSub (titleLower pd) k)

/-- Body-density rule: body longer than 50 characters with topic-token
density at least 1 percent
(`course_mentions / content_words >= 0.01`, exactly
`100 * mentions ≥ words`). -/
def bodyAcceptB (pd : PostData) (keyword : Str) : Bool :=
  (let c := contentLower pd
   decide (50 < c.length) &&
     (let m := countOcc (courseCodeOf keyword) c
      let w := countWords c
      decide (0 < w) && decide (w ≤ 100 * m)))

/-- Reply-relevance rule: at least two replies of more than 30 characters
whose body contains the topic token. -/
def commentAcceptB (pd : PostData) (keyword : Str) : Bool :=
  decide (2 ≤ (pd.comments.filter (fun c =>
    containsSub (lowerStr c.body) (courseCodeOf keyword) &&
      decide (30 < c.body.length))).length)

/-- Fallback rule: topic token in the title and either a body longer than
20 characters or more than 2 replies. -/
def fallbackB (pd : PostData) (keyword : Str) : Bool :=
  containsSub (titleLower pd) (courseCodeOf keyword) &&
    (decide (20 < (contentLower pd).length) || decide (2 < pd.comments.length))

/-- The relevance classifier `_is_main_topic_about_course`: rules applied
in source order, first decisive rule wins. -/
def is_main_topic_about_course (pd : PostData) (keyword : Str) : Bool :=
  if listRejectB pd keyword then false
  else if titleFocusedB pd keyword then true
  else if bodyAcceptB pd keyword then true
  else if commentAcceptB pd keyword then true
  else if fallbackB pd keyword then true
  else false

/-- The filter `filter_posts_for_main_topic`: empty input or empty keyword
pass through unchanged, otherwise keep only classifier-accepted threads. -/
def filter_posts_for_main_topic (posts : List PostData) (keyword : Str) :
    List PostData :=
  if posts = [] ∨ keyword = [] then posts
  else posts.filter (fun pd => is_main_topic_about_course pd keyword)

end RelevanceFilter

section NameResolution

/-- A Rate-My-Professor directory entry as used by name expansion. -/
structure RmpProf where
  firstName : Str
  lastName : Str
deriving DecidableEq

/-- Static nickname table `name_variations` of
`ProfessorExtractionService`. -/
def name_variations : List (Str × List Str) :=
  [ ("elena".data, ["elena".data]),
    ("mike".data, ["michael".data, "mike".data, "mikhail".data]),
    ("dave".data, ["david".data, "dave".data]),
    ("chris".data, ["christopher".data, "chris".data, "christian".data]),
    ("steve".data, ["steven".data, "steve".data, "stephen".data]),
    ("bob".data, ["robert".data, "bob".data, "bobby".data]),
    ("jim".data, ["james".data, "jim".data, "jimmy".data]),
    ("bill".data, ["william".data, "bill".data, "billy".data]),
    ("dan".data, ["daniel".data, "dan".data, "danny".data]),
    ("joe".data, ["joseph".data, "joe".data, "joey".data]),
    ("alex".data, ["alexander".data, "alexandra".data, "alex".data, "alexis".data]),
    ("sam".data, ["samuel".data, "samantha".data, "sam".data]),
    ("pat".data, ["patrick".data, "patricia".data, "pat".data]),
    ("tony".data, ["anthony".data, "antonio".data, "tony".data]),
    ("nick".data, ["nicholas".data, "nick".data, "nicolas".data]) ]

/-- Python `single_name in self.name_variations` plus the table lookup. -/
def lookupVariations (s : Str) : Option (List Str) :=
  (name_variations.find? (fun p => decide (p.1 = s))).map (fun p => p.2)

/-- The `f"{firstName} {lastName}"` full name built for a matched entry. -/
def fullNameOf (prof : RmpProf) : Str := prof.firstName ++ [' '] ++ prof.lastName

/-- The match test of the single-word branch of name expansion: exact
(case-insensitive) first-name match, else exact last-name match, else a
nickname-table hit whose variations contain the entry's first name. -/
def profMatches (single : Str) (prof : RmpProf) : Bool :=
  let fn := lowerStr prof.firstName
  let ln := lowerStr prof.lastName
  if single = fn then true
  else if single = ln then true
  else
    match lookupVariations single with
    | some vars => decide (fn ∈ vars)
    | none => false

/-- `name.lower().strip().split()`: the word list of a candidate name. -/
def wordsOfName (name : Str) : List Str := splitWords (stripStr (lowerStr name))

/-- Expansion of one candidate name against the directory: multi-word
candidates pass through; a single-word candidate collects matching
directory full names (first three) or is retained unexpanded; a candidate
with no words passes through. -/
def expandOne (name : Str) (rmp : List RmpProf) : List Str :=
  let words := wordsOfName name
  if 2 ≤ words.length then [name]
  else
    match words with
    | [single] =>
      let best := rmp.filterMap (fun prof =>
        if profMatches single prof then some (fullNameOf prof) else none)
      if best = [] then [name] else best.take 3
    | _ => [name]

/-- Case-insensitive order-preserving deduplication (the `seen` set of the
source, accumulated as lowercased names). -/
def dedupCIAux (seen : List Str) : List Str → List Str
  | [] => []
  | n :: rest =>
    if lowerStr n ∈ seen then dedupCIAux seen rest
    else n :: dedupCIAux (lowerStr n :: seen) rest

/-- Case-insensitive deduplication keeping first occurrences. -/
def dedupCI (l : List Str) : List Str := dedupCIAux [] l

/-- Models `expand_partial_names(names, rmp_professors)` of
`ProfessorExtractionService`: per-name expansion followed by
case-insensitive deduplication. -/
def expand_names_with_rmp (names : List Str) (rmp : List RmpProf) : List Str :=
  dedupCI (names.flatMap (fun n => expandOne n rmp))

end NameResolution

section SheetsService

/-- A raw CSV row (list of cell strings). -/
abbrev Row := List Str

variable {α β : Type}

/-- Outcome of the per-entry difficulty parse `int(float(row[3].strip()))`.
`ok` is a successful parse; `valError` is a `ValueError`, which the inner
handler catches locally (the difficulty becomes `None` and the row goes
on); `rowError` is any other exception — e.g. `OverflowError` from a cell
like `inf` — which escapes the inner `except ValueError` to the row
loop's outer `except Exception: continue`, aborting the whole row. -/
inductive DParse (β : Type) where
  | ok (b : β)
  | valError
  | rowError
deriving DecidableEq

/-- The review record produced by the spreadsheet parser.  The aggregate
difficulty (Python `float(...)`, which on a string can only raise
`ValueError`) carries an `Option`-valued abstract parser; the per-entry
difficulty carries a `DParse`-valued parser so that its row-aborting
exception path is representable. -/
structure ClassReview (α β : Type) where
  class_code : Str
  average_difficulty : Option α
  additional_comments : Str
  difficulty : Option β
  date : Str
deriving DecidableEq

/-- Column e of a row: `row[4].strip() if len(row) > 4 else ""`. -/
def rowDate (row : Row) : Str := stripStr (row.getD 4 [])

/-- Whether processing this row raises a row-aborting exception: its
nonempty stripped column-d cell makes `int(float(...))` raise something
other than `ValueError`, which the outer handler turns into `continue`. -/
def rowAborts (pi : Str → DParse β) (row : Row) : Bool :=
  let s := stripStr (row.getD 3 [])
  if s = [] then false
  else
    match pi s with
    | DParse.rowError => true
    | _ => false

/-- Column d of a row: per-entry difficulty when present, nonempty and
successfully parsed; a `ValueError` leaves it `None`. -/
def rowIndDiff (pi : Str → DParse β) (row : Row) : Option β :=
  let s := stripStr (row.getD 3 [])
  if s = [] then none
  else
    match pi s with
    | DParse.ok b => some b
    | _ => none

/-- State update of the parser loop: rows with fewer than 3 columns are
skipped, as are rows aborted by a row-level exception (both happen before
the `if class_code:` update runs); otherwise a row whose stripped first
column is nonempty starts a new class, re-parsing the aggregate
difficulty from column b. -/
def stepState (pf : Str → Option α) (pi : Str → DParse β)
    (st : Option (Str × Option α)) (row : Row) : Option (Str × Option α) :=
  if row.length < 3 then st
  else if rowAborts pi row then st
  else
    let c := stripStr (row.getD 0 [])
    if c = [] then st
    else
      let a := stripStr (row.getD 1 [])
      some (upperStr c, if a = [] then none else pf a)

/-- Review emission for one row, given the state after its update: a row
with at least 3 columns that is not aborted by a row-level exception,
with a current class and a nonempty stripped comment column, yields one
review. -/
def emitRow (pi : Str → DParse β) (st : Option (Str × Option α))
    (row : Row) : List (ClassReview α β) :=
  if row.length < 3 then []
  else if rowAborts pi row then []
  else
    match st with
    | none => []
    | some (c, a) =>
      let comments := stripStr (row.getD 2 [])
      if comments = [] then []
      else
        [{ class_code := c, average_difficulty := a,
           additional_comments := comments,
           difficulty := rowIndDiff pi row, date := rowDate row }]

/-- The row loop of `fetch_ucr_class_data`, threading the
current-class state. -/
def parseRowsAux (pf : Str → Option α) (pi : Str → DParse β) :
    Option (Str × Option α) → List Row → List (ClassReview α β)
  | _, [] => []
  | st, r :: rs =>
    let st' := stepState pf pi st r
    emitRow pi st' r ++ parseRowsAux pf pi st' rs

/-- Models `fetch_ucr_class_data`: skip the CSV header row, then run the
grouping row loop with no current class. -/
def fetch_ucr_class_data (pf : Str → Option α) (pi : Str → DParse β)
    (rows : List Row) : List (ClassReview α β) :=
  parseRowsAux pf pi none (rows.drop 1)

/-- Order-preserving deduplication against the output built so far
(the `not in available_classes` test of the source). -/
def dedupKeepFirst (seen : List Str) : List Str → List Str
  | [] => []
  | x :: xs =>
    if x ∈ seen then dedupKeepFirst seen xs
    else x :: dedupKeepFirst (x :: seen) xs

/-- Models `get_available_classes`: uppercased stripped nonempty first
columns of the data rows, first occurrences kept. -/
def get_available_classes (rows : List Row) : List Str :=
  dedupKeepFirst []
    ((rows.drop 1).filterMap (fun row =>
      let s := stripStr (row.getD 0 [])
      if s = [] then none else some (upperStr s)))

/-- Models `get_class_reviews`: normalize the query as
`class_code.upper().strip()`, return `[]` unless it occurs among the
available class codes, otherwise filter the parsed reviews by exact
class-code equality. -/
def get_class_reviews (pf : Str → Option α) (pi : Str → DParse β)
    (rows : List Row) (class_code : Str) : List (ClassReview α β) :=
  let quc := stripStr (upperStr class_code)
  if quc ∈ get_available_classes rows then
    (fetch_ucr_class_data pf pi rows).filter (fun r => r.class_code = quc)
  else []

/-- Header-row test of the amended grouping specification: at least
three columns, not aborted by a row-level exception from its column-d
cell, and a nonempty stripped first column. -/
def isHeaderRow (pi : Str → DParse β) (row : Row) : Bool :=
  decide (3 ≤ row.length) && !rowAborts pi row &&
    decide (stripStr (row.getD 0 []) ≠ [])

/-- Grouping key and aggregate difficulty established by a header row. -/
def headerStateOf (pf : Str → Option α) (row : Row) : Str × Option α :=
  (upperStr (stripStr (row.getD 0 [])),
   let a := stripStr (row.getD 1 [])
   if a = [] then none else pf a)

/-- Most recently seen header row's state over a row sequence, starting
from `st`. -/
def lastHeaderFrom (pf : Str → Option α) (pi : Str → DParse β)
    (st : Option (Str × Option α)) (rows : List Row) :
    Option (Str × Option α) :=
  rows.foldl
    (fun acc r => if isHeaderRow pi r then some (headerStateOf pf r) else acc) st

/-- Modelled from the spec sentence for claim C8 (amended): the reviews
contributed by row `i`, emitted under the state of the most recently seen
header row at or before row `i` — so their subject code and aggregate
difficulty come from that header row. -/
def specEmitFrom (pf : Str → Option α) (pi : Str → DParse β)
    (st : Option (Str × Option α)) (rows : List Row) (i : Nat) :
    List (ClassReview α β) :=
  emitRow pi (lastHeaderFrom pf pi st (rows.take (i + 1))) (rows.getD i [])

/-- Spec-side parse starting from state `st`: concatenate the per-row
contributions in row order. -/
def specParseFrom (pf : Str → Option α) (pi : Str → DParse β)
    (st : Option (Str × Option α)) (rows : List Row) :
    List (ClassReview α β) :=
  (List.range rows.length).flatMap (specEmitFrom pf pi st rows)

/-- Spec-side description of the grouped parse over the data rows. -/
def specParse (pf : Str → Option α) (pi : Str → DParse β)
    (rows : List Row) : List (ClassReview α β) :=
  specParseFrom pf pi none rows

/-- The claim's own (unamended) notion of "most recently seen header row":
any row with a nonempty first column, with no column-count requirement. -/
def lastStatedHeaderCode (rows : List Row) : Option Str :=
  rows.foldl (fun acc r =>
    let s := stripStr (r.getD 0 [])
    if s = [] then acc else some (upperStr s)) none

end SheetsService

section OpenAIService

/-- The structured analysis document expected from the synthesis oracle.
Professors are represented by their `name` fields, which is the only part
of a professor entry the orchestrator reads
(`prof.get("name", "").strip()`). -/
structure StructuredAnalysis where
  overall_sentiment : Str
  difficulty_rank : Str
  difficulty_reasons : List Str
  professors : List Str
  advice_tips : List Str
  advice_resources : List Str
  advice_minority : List Str
  common_pitfalls : List Str
deriving DecidableEq

/-- The minimal well-formed structure returned when both parse attempts
fail (the literal dictionary of the source). -/
def minimalStructuredData : StructuredAnalysis :=
  { overall_sentiment := "Unable to analyze - please try again".data,
    difficulty_rank := "Unknown".data,
    difficulty_reasons := ["Analysis failed".data],
    professors := [],
    advice_tips := ["Unable to generate tips - please try searching again".data],
    advice_resources := [],
    advice_minority := [],
    common_pitfalls := ["Analysis unavailable".data] }

/-- The cleanup pass applied to an unparseable oracle reply: strip, drop a
leading triple-backtick-json or triple-backtick marker, drop a trailing
triple-backtick marker, strip again. -/
def cleanResponse (reply : Str) : Str :=
  let c1 := stripStr reply
  let c2 := if "```json".data.isPrefixOf c1 then c1.drop 7 else c1
  let c3 := if "```".data.isPrefixOf c2 then c2.drop 3 else c2
  let c4 := if "```".data.isSuffixOf c3 then c3.take (c3.length - 3) else c3
  stripStr c4

/-- Outcome of the structured-analysis operation: success flag plus the
parsed (or fallback) document. -/
structure AnalyzeResult where
  success : Bool
  analysis : Option StructuredAnalysis
deriving DecidableEq

/-- Models `analyze_course_discussions_structured`.  JSON parsing is an
oracle parameter `parse` (`none` models `json.JSONDecodeError`); the reply
string is the oracle's message content.  With no posts, no database text
and no RMP professors the call fails up front without consulting the
oracle; otherwise parse, then clean and re-parse once, then fall back to
the minimal structure — always reporting success. -/
def analyze_course_discussions_structured
    (parse : Str → Option StructuredAnalysis) (posts : List PostData)
    (ucr_database : Str) (rmpProfs : List Str) (reply : Str) : AnalyzeResult :=
  if posts = [] ∧ ucr_database = [] ∧ rmpProfs = [] then ⟨false, none⟩
  else
    match parse reply with
    | some d => ⟨true, some d⟩
    | none =>
      match parse (cleanResponse reply) with
      | some d => ⟨true, some d⟩
      | none => ⟨true, some minimalStructuredData⟩

end OpenAIService

section Orchestrator

/-- Result of a rating-service lookup
(`rmp_service.get_course_specific_professor_data`), reduced to the fields
the orchestrator inspects. -/
structure RmpResult where
  success : Bool
  professors : List Str
deriving DecidableEq

/-- Instrumentation of one run: how many times the synthesis oracle (LLM)
was invoked, and the professor-name lists passed to the rating-service
connector — separately for the targeted-lookup step of the main path and
for the database-only path. -/
structure RunLog where
  oracleCalls : Nat
  targetedRmpQueries : List (List Str)
  dbRmpQueries : List (List Str)
deriving DecidableEq

/-- The distinguishable outcomes of `get_enhanced_course_analysis`. -/
inductive AnalysisResult where
  | badRequest
  | noDataFound
  | noUcrPosts
  | redditFetchFailed
  | initialAnalysisFailed
  | successDbOnly (analysis : Option StructuredAnalysis)
  | successResult (structured : Option StructuredAnalysis)
      (rmpEnabled : Bool) (postsAnalyzed : Nat)
deriving DecidableEq

/-- External-world inputs of one run of the enhanced analysis endpoint:
connector results, oracle replies, the JSON parse oracle, and the
rating-service lookup function.  The AI-extraction call of the
database-only path is abstracted by its returned name list
(`extractedNamesReply`). -/
structure Env where
  keyword : Str
  totalPosts : Nat
  ucrPosts : List PostData
  ucrData : Str
  fetchSuccess : Bool
  postsData : List PostData
  includeRmp : Bool
  parse : Str → Option StructuredAnalysis
  initialReply : Str
  finalReply : Str
  extractedNamesReply : List Str
  rmpLookup : List Str → RmpResult

/-- Finalized professor names extracted from the first-pass analysis
document: stripped names that are nonempty and longer than 2 characters. -/
def finalizedProfessorsOf (profs : List Str) : List Str :=
  profs.filterMap (fun p =>
    let n := stripStr p
    if n ≠ [] ∧ 2 < n.length then some n else none)

/-- The `filtered_posts_data` of the main path: fetched posts run through
the relevance filter with the stripped keyword. -/
def mainPathFiltered (env : Env) : List PostData :=
  filter_posts_for_main_topic env.postsData (stripStr env.keyword)

/-- The `initial_analysis` of the main path (first oracle pass over the
filtered posts and database text, with no RMP data). -/
def initialAnalysisOf (env : Env) : AnalyzeResult :=
  analyze_course_discussions_structured env.parse (mainPathFiltered env)
    env.ucrData [] env.initialReply

/-- Oracle invocations performed by the first-pass analysis call: one,
unless its up-front no-data check fails it without consulting the
oracle. -/
def initCallsOf (env : Env) : Nat :=
  if mainPathFiltered env = [] ∧ env.ucrData = [] then 0 else 1

/-- The `finalized_professors` list built from the first-pass document. -/
def finalizedOf (env : Env) : List Str :=
  match (initialAnalysisOf env).analysis with
  | some d => finalizedProfessorsOf d.professors
  | none => []

/-- The professors returned by the targeted rating-service lookup
(empty on lookup failure). -/
def rmpProfsOf (env : Env) : List Str :=
  let r := env.rmpLookup (finalizedOf env)
  if r.success then r.professors else []

/-- The `final_analysis` oracle pass of the main path, re-run with the
rating data included. -/
def finalAnalysisOf (env : Env) : AnalyzeResult :=
  analyze_course_discussions_structured env.parse (mainPathFiltered env)
    env.ucrData (rmpProfsOf env) env.finalReply

/-- The `structured_data` field put into a response:
`analysis.get("analysis") if analysis.get("success") else None`. -/
def resultDocOf (r : AnalyzeResult) : Option StructuredAnalysis :=
  if r.success then r.analysis else none

/-- Rating-service queries issued by the database-only path. -/
def dbQueriesOf (env : Env) : List (List Str) :=
  if env.includeRmp ∧ env.extractedNamesReply ≠ [] then
    [env.extractedNamesReply]
  else []

/-- Professors obtained by the database-only path's rating lookup. -/
def dbRmpProfsOf (env : Env) : List Str :=
  if env.includeRmp ∧ env.extractedNamesReply ≠ [] then
    (let r := env.rmpLookup env.extractedNamesReply
     if r.success then r.professors else [])
  else []

/-- The structured document produced on the database-only path. -/
def dbAnalysisOf (env : Env) : Option StructuredAnalysis :=
  resultDocOf (analyze_course_discussions_structured env.parse []
    env.ucrData (dbRmpProfsOf env) env.initialReply)

/-- Models the `/api/course-analysis-enhanced` entry point
`get_enhanced_course_analysis`, returning the outcome together with the
run's instrumentation log.  The source's local variables are factored
into the named helper definitions above. -/
def get_enhanced_course_analysis (env : Env) : AnalysisResult × RunLog :=
  if stripStr env.keyword = [] then (.badRequest, ⟨0, [], []⟩)
  else if env.totalPosts = 0 then
    if stripStr env.ucrData = [] then (.noDataFound, ⟨0, [], []⟩)
    else
      (.successDbOnly (dbAnalysisOf env), ⟨2, [], dbQueriesOf env⟩)
  else if env.ucrPosts = [] then (.noUcrPosts, ⟨0, [], []⟩)
  else if env.fetchSuccess = false then (.redditFetchFailed, ⟨0, [], []⟩)
  else if (initialAnalysisOf env).success = false then
    (.initialAnalysisFailed, ⟨initCallsOf env, [], []⟩)
  else if env.includeRmp ∧ finalizedOf env ≠ [] then
    if rmpProfsOf env ≠ [] then
      (.successResult (resultDocOf (finalAnalysisOf env)) env.includeRmp
         (mainPathFiltered env).length,
       ⟨initCallsOf env + 1, [finalizedOf env], []⟩)
    else
      (.successResult (resultDocOf (initialAnalysisOf env)) env.includeRmp
         (mainPathFiltered env).length,
       ⟨initCallsOf env, [finalizedOf env], []⟩)
  else
    (.successResult (resultDocOf (initialAnalysisOf env)) env.includeRmp
       (mainPathFiltered env).length,
     ⟨initCallsOf env, [], []⟩)

/-- The professors field of the first-pass synthesis output of a run
(empty when the first pass produced no document). -/
def firstPassProfessorsOf (env : Env) : List Str :=
  match (initialAnalysisOf env).analysis with
  | some d => d.professors
  | none => []

end Orchestrator

section ProgressBus

variable {E : Type}

/-- The process-wide progress registry `progress_tracker`:
session identifier to event log. -/
abbrev Registry (E : Type) := List (Str × List E)

/-- Registry lookup (`progress_tracker[session_id]`, viewed as the
session's event list). -/
def lookupSession (reg : Registry E) (sid : Str) : Option (List E) :=
  (reg.find? (fun p => decide (p.1 = sid))).map (fun p => p.2)

/-- Session creation (`ProgressUpdate.__init__`): register an empty log
under the identifier, replacing any previous entry. -/
def createSession (reg : Registry E) (sid : Str) : Registry E :=
  (sid, ([] : List E)) :: reg.filter (fun p => decide (p.1 ≠ sid))

/-- The `emit` operation: append one event to the log registered under the
session identifier, leaving every other entry untouched. -/
def emitEvent (reg : Registry E) (sid : Str) (ev : E) : Registry E :=
  reg.map (fun p => if p.1 = sid then (p.1, p.2 ++ [ev]) else p)

/-- The `cleanup` operation: delete the session's registry entry. -/
def cleanupSession (reg : Registry E) (sid : Str) : Registry E :=
  reg.filter (fun p => decide (p.1 ≠ sid))

/-- One server-sent output of the progress stream. -/
inductive SseOut (E : Type) where
  | connected
  | event (e : E)
  | heartbeat
  | timeoutOut
deriving DecidableEq

/-- The polling loop of `get_progress_stream`, run over a finite trace of
registry snapshots (`none` models a missing session).  State: consecutive
empty-poll count and the reader's last-read index.  A poll that yields new
events sends them and resets the empty-poll count; otherwise a heartbeat
is sent and the count grows; at 120 the loop stops and a timeout output is
sent.  An exhausted trace models a still-running observation window. -/
def pollLoop : Nat → Nat → List (Option (List E)) → List (SseOut E)
  | tc, _, [] => if 120 ≤ tc then [SseOut.timeoutOut] else []
  | tc, li, s :: rest =>
    if 120 ≤ tc then [SseOut.timeoutOut]
    else
      match s with
      | some evs =>
        if li < evs.length then
          (evs.drop li).map SseOut.event ++ pollLoop 0 evs.length rest
        else
          SseOut.heartbeat :: pollLoop (tc + 1) li rest
      | none => SseOut.heartbeat :: pollLoop (tc + 1) li rest

/-- Models the event generator of `get_progress_stream`: an initial
connection output followed by the polling loop with fresh state. -/
def get_progress_stream (snaps : List (Option (List E))) : List (SseOut E) :=
  SseOut.connected :: pollLoop 0 0 snaps

/-- The event payloads delivered by a stream, in order. -/
def eventsOf (outs : List (SseOut E)) : List E :=
  outs.filterMap (fun o =>
    match o with
    | SseOut.event e => some e
    | _ => none)

/-- A snapshot yields no new event for a reader at index `li`: the session
is missing, or its log has not grown past `li`. -/
def noNew (li : Nat) : Option (List E) → Bool
  | none => true
  | some evs => decide (evs.length ≤ li)

end ProgressBus

section ConcreteInputs

/-- Unit-valued numeric parser that always fails, for concrete sheet
evaluations where the numeric payload is irrelevant. -/
def pfUnit : Str → Option Unit := fun _ => none

/-- Per-entry difficulty parser that raises `ValueError` on every cell
(caught locally, leaving the difficulty `None`), for concrete sheet
evaluations where the numeric payload is irrelevant. -/
def piUnit : Str → DParse Unit := fun _ => DParse.valError

/-- Per-entry difficulty parser under which the cell `inf` raises a
row-aborting exception (`int(float("inf"))` raises `OverflowError`,
which is not a `ValueError`) and every other cell raises `ValueError`. -/
def piInf : Str → DParse Unit :=
  fun s => if s = "inf".data then DParse.rowError else DParse.valError

/-- Spreadsheet rows containing a header-shaped row for class `b` whose
column-d cell is `inf`: CSV header, a header row for class `a` with
comment `x`, a row naming `b` with comment `y` and difficulty cell
`inf`, and a codeless comment row `z`. -/
def c8infRows : List Row :=
  [ ["Class".data, "Average Difficulty".data, "Additional Comments".data],
    ["a".data, "".data, "x".data],
    ["b".data, "5".data, "y".data, "inf".data],
    ["".data, "".data, "z".data] ]

/-- List-style thread body with the topic token exactly once among 400
words: the indicator phrase (3 words), the token, and 396 filler words. -/
def c4text : Str :=
  "has anyone taken cs010 ".data ++ (List.replicate 396 "z ".data).flatten

/-- The 400-word list-style thread of the C4 density instance. -/
def c4post : PostData := ⟨⟨[], c4text⟩, []⟩

/-- Body of the C5 counterexample: a list-indicator phrase followed by 250
filler words, diluting the token below the 0.5 percent density bound. -/
def c5text : Str :=
  "which classes ".data ++ (List.replicate 250 "z ".data).flatten

/-- Thread whose title carries the token and a focus keyword but whose
body makes it a low-density list post. -/
def c5post : PostData := ⟨⟨"cs010 review".data, c5text⟩, []⟩

/-- Focused-title thread with no body and no replies. -/
def c5wpost : PostData := ⟨⟨"cs010 professor review".data, []⟩, []⟩

/-- Thread with no body and no replies whose title holds a focus keyword;
with an empty topic token the title-focus rule accepts it. -/
def c6post : PostData := ⟨⟨"professor review".data, []⟩, []⟩

/-- Directory of five entries sharing the first name Elena. -/
def c7dir : List RmpProf :=
  [ ⟨"Elena".data, "Strzheletska".data⟩, ⟨"Elena".data, "Smith".data⟩,
    ⟨"Elena".data, "Jones".data⟩, ⟨"Elena".data, "Brown".data⟩,
    ⟨"Elena".data, "Davis".data⟩ ]

/-- Spreadsheet rows exhibiting a two-column row between a header row and
a continuation row: CSV header, a header row for class `a` with comment
`x`, a two-column row naming `b`, and a codeless comment row `y`. -/
def c8rows : List Row :=
  [ ["Class".data, "Average Difficulty".data, "Additional Comments".data],
    ["a".data, "".data, "x".data],
    ["b".data, "5".data],
    ["".data, "".data, "y".data] ]

/-- Spreadsheet rows for the subject-lookup witness. -/
def c10rows : List Row :=
  [ ["Class".data, "Avg".data, "Comments".data],
    ["cs010".data, "7".data, "tough".data],
    ["".data, "".data, "fun".data] ]

/-- Environment whose thread search finds nothing and whose review
connector formats nothing. -/
def c1env : Env :=
  { keyword := "cs010".data, totalPosts := 0, ucrPosts := [], ucrData := [],
    fetchSuccess := false, postsData := [], includeRmp := true,
    parse := fun _ => none, initialReply := [], finalReply := [],
    extractedNamesReply := [], rmpLookup := fun _ => ⟨false, []⟩ }

/-- Parse oracle that never succeeds. -/
def parseNone : Str → Option StructuredAnalysis := fun _ => none

/-- First-pass document naming one professor. -/
def c3doc : StructuredAnalysis :=
  { overall_sentiment := [], difficulty_rank := [], difficulty_reasons := [],
    professors := ["Jane Doe".data], advice_tips := [], advice_resources := [],
    advice_minority := [], common_pitfalls := [] }

/-- Environment driving the main path into a targeted rating lookup for
the single first-pass professor. -/
def c3env : Env :=
  { keyword := "cs010".data, totalPosts := 1, ucrPosts := [⟨⟨[], []⟩, []⟩],
    ucrData := "d".data, fetchSuccess := true, postsData := [],
    includeRmp := true, parse := fun _ => some c3doc, initialReply := [],
    finalReply := [], extractedNamesReply := [],
    rmpLookup := fun _ => ⟨true, ["Jane Doe".data]⟩ }

/-- Session identifier for the progress-bus witness. -/
def demoSid : Str := "s".data

/-- One-session registry for the progress-bus witness. -/
def demoReg : Registry Nat := [(demoSid, [5])]

end ConcreteInputs

/-- Membership in the finalized-professor list comes from stripping a
first-pass professors entry and implies the length bound. -/
theorem finalizedProfessorsOf_mem {n : Str} {profs : List Str}
    (h : n ∈ finalizedProfessorsOf profs) :
    (∃ p ∈ profs, n = stripStr p) ∧ 3 ≤ n.length := by
  unfold finalizedProfessorsOf at h
  obtain ⟨p, hp, hcond⟩ := List.mem_filterMap.mp h
  simp only at hcond
  by_cases hc : stripStr p ≠ [] ∧ 2 < (stripStr p).length
  · rw [if_pos hc] at hcond
    obtain rfl : stripStr p = n := Option.some_inj.mp hcond
    exact ⟨⟨p, hp, rfl⟩, hc.2⟩
  · rw [if_neg hc] at hcond
    cases hcond

/-- C1.  With a nonempty topic and zero matching threads, an empty
formatted review-database string makes the run resolve to the no-data
result with an empty instrumentation log: the synthesis oracle is never
invoked and no rating-service query is issued. -/
theorem c1_no_data_short_circuit (env : Env)
    (hk : stripStr env.keyword ≠ [])
    (h0 : env.totalPosts = 0)
    (hu : stripStr env.ucrData = []) :
    get_enhanced_course_analysis env
      = (AnalysisResult.noDataFound, ⟨0, [], []⟩) := by
  simp [get_enhanced_course_analysis, hk, h0, hu]

/-- Witness for C1 at a concrete environment. -/
theorem c1_no_data_short_circuit_witness :
    get_enhanced_course_analysis c1env
      = (AnalysisResult.noDataFound, ⟨0, [], []⟩) :=
  c1_no_data_short_circuit c1env (by decide) rfl rfl

/-- C2.  When the oracle reply does not parse, the structured-analysis
operation performs exactly one cleanup pass and re-parses; if the cleaned
text still does not parse it reports success with the minimal structure,
whose professors list is empty. -/
theorem c2_degrade_not_fail (parse : Str → Option StructuredAnalysis)
    (posts : List PostData) (ucr_database : Str) (rmpProfs : List Str)
    (reply : Str)
    (hdata : ¬ (posts = [] ∧ ucr_database = [] ∧ rmpProfs = []))
    (hp : parse reply = none) :
    (analyze_course_discussions_structured parse posts ucr_database rmpProfs reply
        = match parse (cleanResponse reply) with
          | some d => ⟨true, some d⟩
          | none => ⟨true, some minimalStructuredData⟩) ∧
    (parse (cleanResponse reply) = none →
      analyze_course_discussions_structured parse posts ucr_database rmpProfs reply
          = ⟨true, some minimalStructuredData⟩ ∧
        minimalStructuredData.professors = []) := by
  constructor
  · simp [analyze_course_discussions_structured, hdata, hp]
  · intro hc
    refine ⟨?_, rfl⟩
    simp [analyze_course_discussions_structured, hdata, hp, hc]

/-- Witness for C2: the literal reply `not json` with an always-failing
parser yields a success carrying the minimal structure. -/
theorem c2_degrade_not_fail_witness :
    analyze_course_discussions_structured parseNone [] "d".data [] "not json".data
        = ⟨true, some minimalStructuredData⟩ ∧
      minimalStructuredData.professors = [] :=
  (c2_degrade_not_fail parseNone [] "d".data [] "not json".data
    (by decide) rfl).2 rfl

/-- C4.  Any thread carrying a list-indicator phrase whose topic-token
density over the full text (title, body and replies) is below 0.5 percent
is rejected by the classifier. -/
theorem c4_list_density_reject (pd : PostData) (keyword : Str)
    (h1 : isListStyle pd = true)
    (h2 : 0 < countWords (allTextOf pd))
    (h3 : 200 * countOcc (courseCodeOf keyword) (allTextOf pd)
            < countWords (allTextOf pd)) :
    is_main_topic_about_course pd keyword = false := by
  have hl : listRejectB pd keyword = true := by
    simp [listRejectB, h1, h2, h3]
  simp [is_main_topic_about_course, hl]

/-- Witness for C4: a list-style thread with the token exactly once in
400 words (density 0.25 percent) is rejected. -/
theorem c4_list_density_reject_witness :
    isListStyle c4post = true ∧
    countOcc (courseCodeOf "cs010".data) (allTextOf c4post) = 1 ∧
    countWords (allTextOf c4post) = 400 ∧
    is_main_topic_about_course c4post "cs010".data = false :=
  ⟨by decide, by decide, by decide,
    c4_list_density_reject c4post "cs010".data (by decide) (by decide) (by decide)⟩

/-- Counterexample to C5 as stated: this thread's title contains the
topic token and the focus keyword `review`, yet the classifier rejects
it, because the body makes it a low-density list post and that rule runs
first. -/
theorem c5_counterexample :
    titleFocusedB c5post "cs010".data = true ∧
    is_main_topic_about_course c5post "cs010".data = false := by decide

/-- C5 (amended).  A thread whose title contains the token and a focus
keyword is accepted regardless of body and reply content, provided the
earlier list-style density rule did not already reject it. -/
theorem c5_title_focus_accept (pd : PostData) (keyword : Str)
    (ht : titleFocusedB pd keyword = true)
    (hl : listRejectB pd keyword = false) :
    is_main_topic_about_course pd keyword = true := by
  simp [is_main_topic_about_course, ht, hl]

/-- Witness for amended C5: title `cs010 professor review`, topic
`CS010`-like token, empty body and no replies. -/
theorem c5_title_focus_accept_witness :
    is_main_topic_about_course c5wpost "cs010".data = true :=
  c5_title_focus_accept c5wpost "cs010".data (by decide) (by decide)

/-- Counterexample to C6 as stated: the topic token is empty (keyword
`-`) and the thread has no body and no replies, yet the classifier
returns true, not false. -/
theorem c6_counterexample :
    courseCodeOf "-".data = [] ∧ c6post.post.selftext = [] ∧
    c6post.comments = [] ∧
    is_main_topic_about_course c6post "-".data = true := by decide

/-- C6 (amended).  For a thread with no body and no replies the
classifier is total and never raises: it returns true exactly when the
list-style density rule does not reject and the title-focus rule accepts
(an empty topic token does not by itself force a false result). -/
theorem c6_edge_cases_total (pd : PostData) (keyword : Str)
    (hb : pd.post.selftext = []) (hc : pd.comments = []) :
    is_main_topic_about_course pd keyword
      = (!listRejectB pd keyword && titleFocusedB pd keyword) := by
  have h1 : bodyAcceptB pd keyword = false := by
    simp [bodyAcceptB, contentLower, lowerStr, hb]
  have h2 : commentAcceptB pd keyword = false := by
    simp [commentAcceptB, hc]
  have h3 : fallbackB pd keyword = false := by
    simp [fallbackB, contentLower, lowerStr, hb, hc]
  cases hl : listRejectB pd keyword <;> cases ht : titleFocusedB pd keyword <;>
    simp [is_main_topic_about_course, hl, ht, h1, h2, h3]

/-- Witness for amended C6 at a bodiless, replyless thread. -/
theorem c6_edge_cases_total_witness :
    is_main_topic_about_course ⟨⟨"math9a tips".data, []⟩, []⟩ "math9a".data
      = (!listRejectB ⟨⟨"math9a tips".data, []⟩, []⟩ "math9a".data &&
          titleFocusedB ⟨⟨"math9a tips".data, []⟩, []⟩ "math9a".data) :=
  c6_edge_cases_total ⟨⟨"math9a tips".data, []⟩, []⟩ "math9a".data rfl rfl

/-- C10.  Subject lookup uppercases and strips the query; a query absent
from the available class codes yields the empty list, and every returned
review's class code equals the normalized query exactly. -/
theorem c10_case_insensitive_lookup {α β : Type} (pf : Str → Option α)
    (pi : Str → DParse β) (rows : List Row) (q : Str) :
    (stripStr (upperStr q) ∉ get_available_classes rows →
        get_class_reviews pf pi rows q = []) ∧
    (∀ rv ∈ get_class_reviews pf pi rows q,
        rv.class_code = stripStr (upperStr q)) := by
  constructor
  · intro h
    simp [get_class_reviews, h]
  · intro rv hrv
    unfold get_class_reviews at hrv
    simp only at hrv
    split at hrv
    · exact of_decide_eq_true (List.mem_filter.mp hrv).2
    · cases hrv

/-- Witness for C10: an unavailable code returns the empty list. -/
theorem c10_case_insensitive_lookup_witness :
    get_class_reviews pfUnit piUnit c10rows "zzz".data = [] :=
  (c10_case_insensitive_lookup pfUnit piUnit c10rows "zzz".data).1 (by decide)

/-- C3.  Every professor-name list handed to the rating-service connector
by the targeted-lookup step consists solely of stripped entries of the
first-pass synthesis output's professors field, each of length at least
3. -/
theorem c3_targeted_lookup_subset (env : Env) (q : List Str) (n : Str)
    (hq : q ∈ (get_enhanced_course_analysis env).2.targetedRmpQueries)
    (hn : n ∈ q) :
    (∃ p ∈ firstPassProfessorsOf env, n = stripStr p) ∧ 3 ≤ n.length := by
  unfold get_enhanced_course_analysis at hq
  split at hq
  · simp at hq
  split at hq
  · split at hq
    · simp at hq
    · simp at hq
  split at hq
  · simp at hq
  split at hq
  · simp at hq
  split at hq
  · simp at hq
  split at hq
  case _ =>
    split at hq
    all_goals
      simp only [List.mem_singleton] at hq
      subst hq
      unfold finalizedOf at hn
      rcases hA : (initialAnalysisOf env).analysis with _ | d
      all_goals rw [hA] at hn
      · simp at hn
      · dsimp only at hn
        obtain ⟨⟨p, hp, hps⟩, hlen⟩ := finalizedProfessorsOf_mem hn
        refine ⟨⟨p, ?_, hps⟩, hlen⟩
        unfold firstPassProfessorsOf
        rw [hA]
        exact hp
  case _ =>
    simp at hq

/-- Witness for C3 at an environment whose first pass names one
professor which is then looked up. -/
theorem c3_targeted_lookup_subset_witness :
    (∃ p ∈ firstPassProfessorsOf c3env, "Jane Doe".data = stripStr p) ∧
      3 ≤ ("Jane Doe".data : Str).length :=
  c3_targeted_lookup_subset c3env ["Jane Doe".data] "Jane Doe".data
    (by decide) (by decide)


/-- Case-insensitive deduplication never lengthens a list. -/
theorem dedupCIAux_length_le (l : List Str) :
    ∀ seen, (dedupCIAux seen l).length ≤ l.length := by
  induction l with
  | nil => intro seen; simp [dedupCIAux]
  | cons n rest ih =>
    intro seen
    unfold dedupCIAux
    split
    · exact Nat.le_trans (ih seen) (Nat.le_succ _)
    · simpa using ih (lowerStr n :: seen)

/-- Expansion of a candidate with no words keeps the candidate. -/
theorem expandOne_nilWords (name : Str) (rmp : List RmpProf)
    (hw : wordsOfName name = []) : expandOne name rmp = [name] := by
  simp only [expandOne]
  rw [hw]
  simp

/-- Expansion of a multi-word candidate keeps the candidate unchanged. -/
theorem expandOne_multi (name : Str) (rmp : List RmpProf)
    (h : 2 ≤ (wordsOfName name).length) : expandOne name rmp = [name] := by
  simp only [expandOne]
  rw [if_pos h]

/-- Unfolding of the single-word branch of name expansion. -/
theorem expandOne_single (name single : Str) (rmp : List RmpProf)
    (hw : wordsOfName name = [single]) :
    expandOne name rmp =
      (if rmp.filterMap (fun prof =>
            if profMatches single prof then some (fullNameOf prof) else none) = []
       then [name]
       else (rmp.filterMap (fun prof =>
            if profMatches single prof then some (fullNameOf prof) else none)).take 3) := by
  simp only [expandOne]
  rw [hw]
  simp

/-- C7.  Name expansion: multi-word candidates pass through unchanged;
each candidate contributes at most 3 output names; a single-word
candidate's expansions are either itself or full names of directory
entries matching it on first name, last name or the nickname table, and
with no matching entry the candidate is retained; expanding the single
candidate `Elena` yields at most 3 names against any directory. -/
theorem c7_expand_names_bounded (rmp : List RmpProf) :
    (∀ name : Str, 2 ≤ (wordsOfName name).length → expandOne name rmp = [name]) ∧
    (∀ name : Str, (expandOne name rmp).length ≤ 3) ∧
    (∀ name single : Str, wordsOfName name = [single] →
      (∀ m ∈ expandOne name rmp,
        m = name ∨ ∃ prof ∈ rmp, m = fullNameOf prof ∧ profMatches single prof = true) ∧
      ((∀ prof ∈ rmp, profMatches single prof = false) →
        expandOne name rmp = [name])) ∧
    (expand_names_with_rmp ["Elena".data] rmp).length ≤ 3 := by
  have hone : ∀ name : Str, (expandOne name rmp).length ≤ 3 := by
    intro name
    rcases hW : wordsOfName name with _ | ⟨s, rest⟩
    · rw [expandOne_nilWords name rmp hW]; simp
    · rcases rest with _ | ⟨t, rest2⟩
      · rw [expandOne_single name s rmp hW]
        split
        · simp
        · rw [List.length_take]
          exact Nat.min_le_left _ _
      · rw [expandOne_multi name rmp (by rw [hW]; simp)]
        simp
  refine ⟨fun name h => expandOne_multi name rmp h, hone, ?_, ?_⟩
  · intro name single hw
    constructor
    · intro m hm
      rw [expandOne_single name single rmp hw] at hm
      split at hm
      · simp at hm; exact Or.inl hm
      · have hm' := List.take_subset 3 _ hm
        obtain ⟨prof, hprof, hsome⟩ := List.mem_filterMap.mp hm'
        by_cases hpm : profMatches single prof = true
        · rw [if_pos hpm] at hsome
          exact Or.inr ⟨prof, hprof, (Option.some_inj.mp hsome).symm, hpm⟩
        · rw [if_neg hpm] at hsome
          cases hsome
    · intro hnone
      rw [expandOne_single name single rmp hw]
      have hnil : rmp.filterMap (fun prof =>
          if profMatches single prof then some (fullNameOf prof) else none) = [] := by
        rw [List.filterMap_eq_nil_iff]
        intro prof hprof
        rw [hnone prof hprof]
        simp
      rw [hnil]
      simp
  · unfold expand_names_with_rmp
    rw [List.flatMap_cons, List.flatMap_nil, List.append_nil]
    exact Nat.le_trans (dedupCIAux_length_le _ []) (hone "Elena".data)

/-- Witness for C7: a multi-word candidate passes through a concrete
5-entry Elena directory unchanged, and expanding `Elena` against it gives
at most 3 names. -/
theorem c7_expand_names_bounded_witness :
    expandOne "Marek Chrobak".data c7dir = ["Marek Chrobak".data] ∧
    (expand_names_with_rmp ["Elena".data] c7dir).length ≤ 3 :=
  ⟨(c7_expand_names_bounded c7dir).1 "Marek Chrobak".data (by decide),
   (c7_expand_names_bounded c7dir).2.2.2⟩

/-- The state update of the parser loop coincides with the header-row
update of the specification. -/
theorem stepState_eq_header {α β : Type} (pf : Str → Option α)
    (pi : Str → DParse β) (st : Option (Str × Option α)) (row : Row) :
    stepState pf pi st row
      = if isHeaderRow pi row then some (headerStateOf pf row) else st := by
  unfold stepState isHeaderRow headerStateOf
  by_cases h3 : row.length < 3
  · have h3' : ¬ 3 ≤ row.length := by omega
    simp [h3, h3']
  · have h3' : 3 ≤ row.length := by omega
    by_cases ha : rowAborts pi row = true
    · simp [h3, h3', ha]
    · by_cases h0 : stripStr (row.getD 0 []) = []
      · simp [h3, h3', ha, h0]
      · simp [h3, h3', ha, h0]

/-- Peeling one row off the most-recent-header fold. -/
theorem lastHeaderFrom_cons {α β : Type} (pf : Str → Option α)
    (pi : Str → DParse β) (st : Option (Str × Option α)) (r : Row)
    (l : List Row) :
    lastHeaderFrom pf pi st (r :: l)
      = lastHeaderFrom pf pi (stepState pf pi st r) l := by
  unfold lastHeaderFrom
  rw [List.foldl_cons, ← stepState_eq_header]

/-- The row-zero contribution of the specification is the loop's emission
under the updated state. -/
theorem specEmitFrom_zero {α β : Type} (pf : Str → Option α)
    (pi : Str → DParse β) (st : Option (Str × Option α)) (r : Row)
    (rs : List Row) :
    specEmitFrom pf pi st (r :: rs) 0
      = emitRow pi (stepState pf pi st r) r := by
  unfold specEmitFrom
  rw [show List.take (0 + 1) (r :: rs) = [r] by simp,
    show lastHeaderFrom pf pi st [r] = stepState pf pi st r by
      unfold lastHeaderFrom
      rw [List.foldl_cons, ← stepState_eq_header]
      rfl,
    List.getD_cons_zero]

/-- Index shift of the specification's per-row contribution. -/
theorem specEmitFrom_succ {α β : Type} (pf : Str → Option α)
    (pi : Str → DParse β) (st : Option (Str × Option α)) (r : Row)
    (rs : List Row) (i : Nat) :
    specEmitFrom pf pi st (r :: rs) (i + 1)
      = specEmitFrom pf pi (stepState pf pi st r) rs i := by
  unfold specEmitFrom
  rw [List.getD_cons_succ, List.take_succ_cons, lastHeaderFrom_cons]

/-- Unrolling the specification parse by one row. -/
theorem specParseFrom_cons {α β : Type} (pf : Str → Option α)
    (pi : Str → DParse β) (st : Option (Str × Option α)) (r : Row)
    (rs : List Row) :
    specParseFrom pf pi st (r :: rs)
      = emitRow pi (stepState pf pi st r) r
          ++ specParseFrom pf pi (stepState pf pi st r) rs := by
  unfold specParseFrom
  rw [List.length_cons, List.range_succ_eq_map, List.flatMap_cons,
    List.flatMap_map, specEmitFrom_zero]
  congr 1
  simp only [Nat.succ_eq_add_one, specEmitFrom_succ]

/-- The parser loop agrees with the most-recently-seen-header
specification from every starting state. -/
theorem parseRowsAux_eq_spec {α β : Type} (pf : Str → Option α)
    (pi : Str → DParse β) :
    ∀ (rows : List Row) (st : Option (Str × Option α)),
      parseRowsAux pf pi st rows = specParseFrom pf pi st rows := by
  intro rows
  induction rows with
  | nil => intro st; rfl
  | cons r rs ih =>
    intro st
    rw [specParseFrom_cons]
    have hstep : parseRowsAux pf pi st (r :: rs)
        = emitRow pi (stepState pf pi st r) r
            ++ parseRowsAux pf pi (stepState pf pi st r) rs := rfl
    rw [hstep, ih]

/-- A row aborted by its column-d cell is skipped whole: under `piInf`
the `b` row (difficulty cell `inf`) neither emits its `y` review nor
becomes the grouping key, so `z` stays under `A`; under a parser that
merely raises `ValueError` on the same cell, `b` both emits and becomes
the key. -/
theorem fetch_skips_aborting_rows :
    ((fetch_ucr_class_data pfUnit piInf c8infRows).map
        (fun r => (r.class_code, r.additional_comments)))
      = [("A".data, "x".data), ("A".data, "z".data)] ∧
    ((fetch_ucr_class_data pfUnit piUnit c8infRows).map
        (fun r => (r.class_code, r.additional_comments)))
      = [("A".data, "x".data), ("B".data, "y".data), ("B".data, "z".data)] := by
  decide

/-- Counterexample to C8 as stated: with a two-column row `b` between
header row `a` and the codeless comment row `y`, the parser files the `y`
review under `A`, while the most recently seen row with a nonempty first
column (the claim's notion of header row) is `b`. -/
theorem c8_counterexample :
    ((fetch_ucr_class_data pfUnit piUnit c8rows).map
        (fun r => (r.class_code, r.additional_comments)))
      = [("A".data, "x".data), ("A".data, "y".data)] ∧
    lastStatedHeaderCode (c8rows.drop 1) = some "B".data ∧
    ("A".data : Str) ≠ "B".data := by decide

/-- C8 (amended).  The spreadsheet parser equals the specification in
which every comment-carrying row is filed under the most recently seen
header row — where a header row has at least 3 columns, a column-d cell
that does not raise a row-aborting exception, and a nonempty first
column; rows failing the first two conditions are skipped whole and
establish no grouping key — inheriting that header's aggregate
difficulty, and comment rows before any header row produce no review. -/
theorem c8_grouping_amended {α β : Type} (pf : Str → Option α)
    (pi : Str → DParse β) (rows : List Row) :
    fetch_ucr_class_data pf pi rows = specParse pf pi (rows.drop 1) :=
  parseRowsAux_eq_spec pf pi (rows.drop 1) none

/-- Emitting appends exactly one event at the end of the emitting
session's registered log. -/
theorem lookupSession_emit_self {E : Type} (reg : Registry E) (sid : Str)
    (ev : E) :
    lookupSession (emitEvent reg sid ev) sid
      = (lookupSession reg sid).map (fun l => l ++ [ev]) := by
  induction reg with
  | nil => rfl
  | cons p ps ih =>
    by_cases h : p.1 = sid
    · simp [lookupSession, emitEvent, h]
    · simp only [lookupSession, emitEvent, List.map_cons, if_neg h] at ih ⊢
      rw [List.find?_cons_of_neg _ (by simpa using h),
        List.find?_cons_of_neg _ (by simpa using h)]
      exact ih

/-- Emitting never touches the log of another session. -/
theorem lookupSession_emit_other {E : Type} (reg : Registry E)
    (sid sid' : Str) (ev : E) (h : sid' ≠ sid) :
    lookupSession (emitEvent reg sid ev) sid' = lookupSession reg sid' := by
  induction reg with
  | nil => rfl
  | cons p ps ih =>
    by_cases hp : p.1 = sid
    · have hps : ¬ p.1 = sid' := by rw [hp]; exact fun e => h e.symm
      simp only [lookupSession, emitEvent, List.map_cons, if_pos hp] at ih ⊢
      rw [List.find?_cons_of_neg _ (by simpa using hps),
        List.find?_cons_of_neg _ (by simpa using hps)]
      exact ih
    · by_cases hq : p.1 = sid'
      · simp only [lookupSession, emitEvent, List.map_cons, if_neg hp]
        rw [List.find?_cons_of_pos _ (by simpa using hq),
          List.find?_cons_of_pos _ (by simpa using hq)]
      · simp only [lookupSession, emitEvent, List.map_cons, if_neg hp] at ih ⊢
        rw [List.find?_cons_of_neg _ (by simpa using hq),
          List.find?_cons_of_neg _ (by simpa using hq)]
        exact ih

/-- Cleanup removes the session's registry entry. -/
theorem lookupSession_cleanup_self {E : Type} (reg : Registry E)
    (sid : Str) :
    lookupSession (cleanupSession reg sid) sid = none := by
  induction reg with
  | nil => rfl
  | cons p ps ih =>
    by_cases hp : p.1 = sid
    · simpa [cleanupSession, hp] using ih
    · simp only [cleanupSession, List.filter_cons] at ih ⊢
      rw [if_pos (by simpa using hp)]
      simp only [lookupSession] at ih ⊢
      rw [List.find?_cons_of_neg _ (by simpa using hp)]
      exact ih

/-- Appending streams appends their delivered events. -/
theorem eventsOf_append {E : Type} (a b : List (SseOut E)) :
    eventsOf (a ++ b) = eventsOf a ++ eventsOf b :=
  List.filterMap_append a b _

/-- A run of event outputs delivers exactly its payloads. -/
theorem eventsOf_map_event {E : Type} (xs : List E) :
    eventsOf (xs.map SseOut.event) = xs := by
  induction xs with
  | nil => rfl
  | cons x xs ih =>
    simp only [List.map_cons, eventsOf, List.filterMap_cons] at ih ⊢
    rw [ih]

/-- Heartbeats deliver no events. -/
theorem eventsOf_heartbeat_cons {E : Type} (rest : List (SseOut E)) :
    eventsOf (SseOut.heartbeat :: rest) = eventsOf rest := by
  simp [eventsOf, List.filterMap_cons]

/-- Over any snapshot trace whose logs only ever grow by appending (as
emits guarantee), the polling reader delivers exactly the suffix, past
its starting index, of one of the observed logs — events in emission
order, no duplicates, no reordering. -/
theorem pollLoop_in_order {E : Type} (logs : List (List E)) :
    ∀ (cur : List E) (tc : Nat),
      List.Pairwise (· <+: ·) (cur :: logs) →
      ∃ l, l ∈ cur :: logs ∧
        eventsOf (pollLoop tc cur.length (logs.map some)) = l.drop cur.length := by
  induction logs with
  | nil =>
    intro cur tc _
    refine ⟨cur, List.mem_cons_self _ _, ?_⟩
    by_cases h : 120 ≤ tc <;> simp [pollLoop, h, eventsOf, List.drop_length]
  | cons l1 rest ih =>
    intro cur tc hpw
    have hc1 : cur <+: l1 := (List.pairwise_cons.mp hpw).1 l1 (List.mem_cons_self _ _)
    by_cases htc : 120 ≤ tc
    · refine ⟨cur, List.mem_cons_self _ _, ?_⟩
      simp [pollLoop, htc, eventsOf, List.drop_length]
    · by_cases hnew : cur.length < l1.length
      · obtain ⟨l', hmem, heq⟩ := ih l1 0 hpw.of_cons
        have h1l' : l1 <+: l' := by
          rcases List.mem_cons.mp hmem with h | h
          · subst h; exact ⟨[], List.append_nil _⟩
          · exact (List.pairwise_cons.mp hpw.of_cons).1 l' h
        refine ⟨l', List.mem_cons_of_mem cur hmem, ?_⟩
        have hunf : pollLoop tc cur.length ((l1 :: rest).map some)
            = (l1.drop cur.length).map SseOut.event
                ++ pollLoop 0 l1.length (rest.map some) := by
          simp [pollLoop, htc, hnew]
        rw [hunf, eventsOf_append, eventsOf_map_event, heq]
        obtain ⟨t, rfl⟩ := h1l'
        rw [List.drop_append_of_le_length hc1.length_le, List.drop_left]
      · have hle : l1.length ≤ cur.length := Nat.le_of_not_lt hnew
        obtain rfl : cur = l1 := hc1.eq_of_length (Nat.le_antisymm hc1.length_le hle)
        have hpw2 : List.Pairwise (· <+: ·) (cur :: rest) := by
          rw [List.pairwise_cons] at hpw ⊢
          exact ⟨fun a ha => hpw.1 a (List.mem_cons_of_mem _ ha), hpw.2.of_cons⟩
        obtain ⟨l', hmem, heq⟩ := ih cur (tc + 1) hpw2
        refine ⟨l', ?_, ?_⟩
        · rcases List.mem_cons.mp hmem with h | h
          · exact h ▸ List.mem_cons_self _ _
          · exact List.mem_cons_of_mem _ (List.mem_cons_of_mem _ h)
        · have hunf : pollLoop tc cur.length ((cur :: rest).map some)
              = SseOut.heartbeat :: pollLoop (tc + 1) cur.length (rest.map some) := by
            simp [pollLoop, htc]
          rw [hunf, eventsOf_heartbeat_cons, heq]

/-- After a block of consecutive polls that yield no new event and
exhaust the empty-poll budget starting from count `tc`, the reader sends
only heartbeats and then gives up with a timeout output. -/
theorem pollLoop_timeout_after {E : Type} :
    ∀ (snaps : List (Option (List E))) (tc li : Nat)
      (rest : List (Option (List E))),
      tc + snaps.length = 120 →
      (∀ s ∈ snaps, noNew li s = true) →
      pollLoop tc li (snaps ++ rest)
        = List.replicate snaps.length SseOut.heartbeat ++ [SseOut.timeoutOut] := by
  intro snaps
  induction snaps with
  | nil =>
    intro tc li rest h _
    have h120 : tc = 120 := by simpa using h
    subst h120
    cases rest with
    | nil => simp [pollLoop]
    | cons s r => simp [pollLoop]
  | cons s ss ih =>
    intro tc li rest h hall
    have hlen : tc + (ss.length + 1) = 120 := by simpa using h
    have htc : ¬ 120 ≤ tc := by omega
    have hs := hall s (List.mem_cons_self _ _)
    have hrec := ih (tc + 1) li rest (by omega)
      (fun x hx => hall x (List.mem_cons_of_mem _ hx))
    cases s with
    | none =>
      simp only [List.cons_append]
      rw [show pollLoop tc li (none :: (ss ++ rest))
          = SseOut.heartbeat :: pollLoop (tc + 1) li (ss ++ rest) by
            simp [pollLoop, htc]]
      rw [hrec]
      simp [List.replicate_succ]
    | some evs =>
      have hev : ¬ li < evs.length := by
        simp [noNew] at hs; omega
      simp only [List.cons_append]
      rw [show pollLoop tc li (some evs :: (ss ++ rest))
          = SseOut.heartbeat :: pollLoop (tc + 1) li (ss ++ rest) by
            simp [pollLoop, htc, hev]]
      rw [hrec]
      simp [List.replicate_succ]

/-- C9.  The progress bus: emit appends exactly one event at the end of
its session's log, modifying no other session and removing no entry;
only cleanup removes a session's entry; a polling reader over
append-only snapshots receives events in emission order as the suffix of
an observed log; and 120 consecutive polls with no new event terminate
the stream with a timeout output. -/
theorem c9_progress_bus :
    (∀ (E : Type) (reg : Registry E) (sid : Str) (ev : E),
        lookupSession (emitEvent reg sid ev) sid
          = (lookupSession reg sid).map (fun l => l ++ [ev])) ∧
    (∀ (E : Type) (reg : Registry E) (sid sid' : Str) (ev : E), sid' ≠ sid →
        lookupSession (emitEvent reg sid ev) sid' = lookupSession reg sid') ∧
    (∀ (E : Type) (reg : Registry E) (sid sid' : Str) (ev : E),
        (lookupSession (emitEvent reg sid ev) sid').isSome
          = (lookupSession reg sid').isSome) ∧
    (∀ (E : Type) (reg : Registry E) (sid : Str),
        lookupSession (cleanupSession reg sid) sid = none) ∧
    (∀ (E : Type) (logs : List (List E)) (cur : List E) (tc : Nat),
        List.Pairwise (· <+: ·) (cur :: logs) →
        ∃ l, l ∈ cur :: logs ∧
          eventsOf (pollLoop tc cur.length (logs.map some))
            = l.drop cur.length) ∧
    (∀ (E : Type) (snaps rest : List (Option (List E))) (li : Nat),
        snaps.length = 120 → (∀ s ∈ snaps, noNew li s = true) →
        pollLoop 0 li (snaps ++ rest)
          = List.replicate 120 SseOut.heartbeat ++ [SseOut.timeoutOut]) := by
  refine ⟨fun E reg sid ev => lookupSession_emit_self reg sid ev,
    fun E reg sid sid' ev h => lookupSession_emit_other reg sid sid' ev h,
    ?_,
    fun E reg sid => lookupSession_cleanup_self reg sid,
    fun E logs cur tc h => pollLoop_in_order logs cur tc h,
    ?_⟩
  · intro E reg sid sid' ev
    by_cases h : sid' = sid
    · subst h
      rw [lookupSession_emit_self]
      exact Option.isSome_map
    · rw [lookupSession_emit_other reg sid sid' ev h]
  · intro E snaps rest li h1 h2
    have h := pollLoop_timeout_after snaps 0 li rest (by omega) h2
    rwa [h1] at h

/-- Witness for C9: an emit on a one-session registry, an in-order read
over a two-snapshot trace, and a timeout after 120 empty polls. -/
theorem c9_progress_bus_witness :
    lookupSession (emitEvent demoReg demoSid 7) demoSid
        = (lookupSession demoReg demoSid).map (fun l => l ++ [7]) ∧
    (∃ l, l ∈ ([] : List Nat) :: [[1], [1, 2]] ∧
      eventsOf (pollLoop 0 (List.length ([] : List Nat)) ([[1], [1, 2]].map some))
        = l.drop (List.length ([] : List Nat))) ∧
    pollLoop 0 0 (List.replicate 120 (none : Option (List Nat)) ++ [])
      = List.replicate 120 SseOut.heartbeat ++ [SseOut.timeoutOut] :=
  ⟨c9_progress_bus.1 Nat demoReg demoSid 7,
   c9_progress_bus.2.2.2.2.1 Nat [[1], [1, 2]] [] 0 (by decide),
   c9_progress_bus.2.2.2.2.2 Nat (List.replicate 120 none) [] 0
     (by simp) (fun s hs => by rw [List.eq_of_mem_replicate hs]; rfl)⟩
